import Mathlib

/-!
Verification of a minimal PostgreSQL-compatible relational database server.

The development shallowly embeds three pieces of the program:

* the frontend storage layer (catalog, tables, rows) used by the SQL
  engine; its implementation is not among the provided source files, so it
  is modelled from the specification (section 4.3) and from the repository's
  own storage tests (`src/storage/src/frontend/tests/queries/select.rs`),
* the connection listener's handshake (`src/protocol/src/listener.rs`),
* the INSERT command executor (`src/sql_engine/src/dml/insert.rs`).

Machine strings are Lean `String`s; wire bytes are `Nat`s below 256.
-/

/-! ## Data model (spec section 3) -/

/-- SQL column types.  Modelled from the spec: `SqlType` is a tagged variant
`SmallInt`, `Integer`, `BigInt`, `Char(len)`, `VarChar(maxlen)`, `Boolean`
(spec section 3); the sql_types crate itself is not among the source files. -/
inductive SqlType
  | smallInt
  | integer
  | bigInt
  | char (len : Nat)
  | varChar (len : Nat)
  | boolean
deriving DecidableEq, Repr

/-- A column definition: name and SQL type (spec section 3, and the
`column_definition` helper in the storage tests). -/
structure ColumnDefinition where
  name : String
  sql_type : SqlType
deriving DecidableEq, Repr

/-- Per-cell constraint violation kinds.  Modelled from the spec:
`OutOfRange`, `TypeMismatch(value)`, `ValueTooLong(len)` (spec section 4.3);
matches the `ConstraintError` enum consumed by `insert.rs`. -/
inductive ConstraintError
  | outOfRange
  | typeMismatch (value : String)
  | valueTooLong (len : Nat)
deriving DecidableEq, Repr

/-- Domain errors of storage operations.  Modelled from the spec (section
4.3 table); the variant payloads match their uses in `insert.rs`. -/
inductive OperationOnTableError
  | schemaDoesNotExist
  | tableDoesNotExist
  | columnDoesNotExist (names : List String)
  | constraintViolations (errors : List (ConstraintError × ColumnDefinition)) (rowIndex : Nat)
  | insertTooManyExpressions
deriving DecidableEq, Repr

/-- A stored table: ordered column definitions plus ordered rows of
string-encoded cells (spec section 3). -/
structure TableData where
  columns : List ColumnDefinition
  rows : List (List String)
deriving DecidableEq, Repr

/-- The frontend storage state: an ordered association of schema names to
ordered associations of table names to tables (spec section 3). -/
structure FrontendStorage where
  schemas : List (String × List (String × TableData))
deriving DecidableEq, Repr

/-! ### Association-list helpers -/

/-- First-match lookup in an association list. -/
def alookup {β : Type} (key : String) : List (String × β) → Option β
  | [] => none
  | (k, v) :: rest => if k = key then some v else alookup key rest

/-- Update the first entry with the given key in an association list. -/
def aupdate {β : Type} (key : String) (f : β → β) : List (String × β) → List (String × β)
  | [] => []
  | (k, v) :: rest => if k = key then (k, f v) :: rest else (k, v) :: aupdate key f rest

theorem alookup_aupdate {β : Type} (key : String) (f : β → β) :
    (l : List (String × β)) → alookup key (aupdate key f l) = (alookup key l).map f
  | [] => rfl
  | (k, v) :: rest => by
      by_cases h : k = key <;> simp [alookup, aupdate, h, alookup_aupdate key f rest]

/-! ### Value validation and serialization -/

/-- Numeral value of a list of decimal digit characters. -/
def digitsToNat (cs : List Char) : Nat :=
  cs.foldl (fun acc c => acc * 10 + (c.toNat - 48)) 0

/-- Parse an optionally negated decimal integer literal, as Rust's integer
`from_str` does on the inputs the storage layer sees. -/
def parseIntText (s : String) : Option Int :=
  match s.data with
  | [] => none
  | c :: rest =>
      if c = '-' then
        if rest ≠ [] ∧ rest.all Char.isDigit then some (-(digitsToNat rest : Int)) else none
      else if (c :: rest).all Char.isDigit then some (digitsToNat (c :: rest))
      else none

/-- Lower bound of an integer SQL type. -/
def SqlType.minBound : SqlType → Int
  | .smallInt => -32768
  | .integer => -2147483648
  | .bigInt => -9223372036854775808
  | _ => 0

/-- Upper bound of an integer SQL type. -/
def SqlType.maxBound : SqlType → Int
  | .smallInt => 32767
  | .integer => 2147483647
  | .bigInt => 9223372036854775807
  | _ => 0

/-- Validation predicate over a candidate string value.  Modelled from the
spec (sections 3 and 4.3): a numeric literal that parses but exceeds the
type's bounds is `OutOfRange`, a literal that cannot be parsed as the
declared type is `TypeMismatch`, and a character value longer than the
`Char(n)`/`VarChar(n)` bound is `ValueTooLong` carrying the value's
length. -/
def validateValue (t : SqlType) (v : String) : Option ConstraintError :=
  match t with
  | .smallInt | .integer | .bigInt =>
      match parseIntText v with
      | none => some (.typeMismatch v)
      | some n => if n < t.minBound ∨ t.maxBound < n then some .outOfRange else none
  | .char n | .varChar n => if n < v.length then some (.valueTooLong v.length) else none
  | .boolean => if v = "true" ∨ v = "false" then none else some (.typeMismatch v)

/-- Remove trailing space characters. -/
def trimEndSpaces (s : String) : String :=
  ⟨(s.data.reverse.dropWhile (fun c => c = ' ')).reverse⟩

/-- Stored form of one cell.  Modelled from the spec plus the repository's
own storage test `select_different_character_strings_types`, which pins
that a `VarChar` value inserted with trailing spaces is stored and read
back without them, while other values are stored verbatim (shorter `Char`
values are not padded). -/
def serializeCell (t : SqlType) (v : String) : String :=
  match t with
  | .char _ => trimEndSpaces v
  | .varChar _ => trimEndSpaces v
  | _ => v

/-- Stored form of one row against its target columns. -/
def serializeRow (cols : List ColumnDefinition) (row : List String) : List String :=
  (cols.zip row).map (fun p => serializeCell p.1.sql_type p.2)

/-- All constraint violations of one row, cell by cell, left to right
(spec section 4.3: all violations in a row are collected). -/
def rowViolations (cols : List ColumnDefinition) (row : List String) :
    List (ConstraintError × ColumnDefinition) :=
  (cols.zip row).filterMap (fun p => (validateValue p.1.sql_type p.2).map (fun e => (e, p.1)))

/-- Validate and serialize the rows of one insert; the first row whose cell
count differs from the target column count aborts with
`InsertTooManyExpressions`, the first row with violations aborts with
`ConstraintViolations` carrying that row's index (spec section 4.3). -/
def checkRows (cols : List ColumnDefinition) :
    List (List String) → Nat → Except OperationOnTableError (List (List String))
  | [], _ => .ok []
  | row :: rest, idx =>
      if row.length ≠ cols.length then .error .insertTooManyExpressions
      else
        match rowViolations cols row with
        | [] => (checkRows cols rest (idx + 1)).map (fun rs => serializeRow cols row :: rs)
        | e :: es => .error (.constraintViolations (e :: es) idx)

/-- Position of the first column with the given name. -/
def findColIdx (c : String) : List ColumnDefinition → Option Nat
  | [] => none
  | cd :: rest => if cd.name = c then some 0 else (findColIdx c rest).map (· + 1)

/-- The column definitions a non-empty insert projection resolves to, and
the missing names (spec section 4.3). -/
def resolveCols (cds : List ColumnDefinition) : List String → List (String × Option ColumnDefinition)
  | [] => []
  | c :: cols => (c, (findColIdx c cds).bind (fun i => cds[i]?)) :: resolveCols cds cols

/-- Names in a projection that are not declared columns. -/
def missingNames (cds : List ColumnDefinition) (cols : List String) : List String :=
  ((resolveCols cds cols).filter (fun p => p.2.isNone)).map (fun p => p.1)

/-- Insert into one table.  Modelled from the spec (section 4.3): an empty
projection means all columns in declaration order; unknown projected names
collapse to `ColumnDoesNotExist` listing all missing names; rows are
validated in order and appended after the existing rows.  The spec leaves
the stored shape of a partial-column insert unspecified; here the projected
cells are validated against their columns and the stored row takes the
projected value for each declared column, the empty string elsewhere. -/
def insertIntoTable (td : TableData) (cols : List String) (rows : List (List String)) :
    Except OperationOnTableError TableData :=
  if cols.isEmpty then
    (checkRows td.columns rows 0).map (fun rs => ⟨td.columns, td.rows ++ rs⟩)
  else
    match missingNames td.columns cols with
    | [] =>
        let tcols := (resolveCols td.columns cols).filterMap (fun p => p.2)
        (checkRows tcols rows 0).map (fun rs =>
          ⟨td.columns,
           td.rows ++ rs.map (fun r =>
             td.columns.map (fun cd =>
               match (findColIdx cd.name tcols).bind (fun i => r[i]?) with
               | some v => v
               | none => ""))⟩)
    | m :: ms => .error (.columnDoesNotExist (m :: ms))

/-- `FrontendStorage::insert_into`.  Modelled from the spec (section 4.3):
resolve schema then table, then defer to the table-level insert. -/
def insertInto (st : FrontendStorage) (schemaName tableName : String)
    (cols : List String) (rows : List (List String)) :
    Except OperationOnTableError FrontendStorage :=
  match alookup schemaName st.schemas with
  | none => .error .schemaDoesNotExist
  | some tables =>
      match alookup tableName tables with
      | none => .error .tableDoesNotExist
      | some td =>
          (insertIntoTable td cols rows).map (fun td' =>
            ⟨aupdate schemaName (fun tabs => aupdate tableName (fun _ => td') tabs) st.schemas⟩)

/-- Cell of a stored row at the column with the given name (empty when the
name does not resolve, which the select path rules out beforehand). -/
def cellAt (cds : List ColumnDefinition) (r : List String) (c : String) : String :=
  match findColIdx c cds with
  | some i => r.getD i ""
  | none => ""

/-- Select from one table.  Modelled from the spec (sections 4.3 and its
projection-semantics paragraph): the projection is preserved verbatim,
order and duplicates included; unknown names collapse to
`ColumnDoesNotExist` listing all missing names; every stored row is
projected cell-wise in projection order. -/
def selectFromTable (td : TableData) (cols : List String) :
    Except OperationOnTableError (List ColumnDefinition × List (List String)) :=
  match missingNames td.columns cols with
  | [] =>
      .ok ((resolveCols td.columns cols).filterMap (fun p => p.2),
           td.rows.map (fun r => cols.map (fun c => cellAt td.columns r c)))
  | m :: ms => .error (.columnDoesNotExist (m :: ms))

/-- `FrontendStorage::select_all_from`.  Modelled from the spec (section
4.3): resolve schema then table, then defer to the table-level select. -/
def selectAllFrom (st : FrontendStorage) (schemaName tableName : String) (cols : List String) :
    Except OperationOnTableError (List ColumnDefinition × List (List String)) :=
  match alookup schemaName st.schemas with
  | none => .error .schemaDoesNotExist
  | some tables =>
      match alookup tableName tables with
      | none => .error .tableDoesNotExist
      | some td => selectFromTable td cols

/-- Table stored under a schema and table name. -/
def lookupTable (st : FrontendStorage) (schemaName tableName : String) : Option TableData :=
  (alookup schemaName st.schemas).bind (fun tables => alookup tableName tables)

/-! ## Claim C1: select projection is preserved verbatim -/

theorem findColIdx_get (c : String) :
    (cds : List ColumnDefinition) → (i : Nat) → findColIdx c cds = some i →
      ∃ cd, cds[i]? = some cd ∧ cd.name = c
  | [], i, h => by simp [findColIdx] at h
  | cd :: rest, i, h => by
      by_cases hn : cd.name = c
      · simp [findColIdx, hn] at h
        exact ⟨cd, by simp [← h], hn⟩
      · simp only [findColIdx, hn, if_false, Option.map_eq_some'] at h
        obtain ⟨j, hj, hij⟩ := h
        obtain ⟨cd', hget, hname⟩ := findColIdx_get c rest j hj
        exact ⟨cd', by simp [← hij, hget], hname⟩

theorem findColIdx_isSome (c : String) :
    (cds : List ColumnDefinition) → c ∈ cds.map (fun cd => cd.name) →
      (findColIdx c cds).isSome
  | [], h => by simp at h
  | cd :: rest, h => by
      by_cases hn : cd.name = c
      · simp [findColIdx, hn]
      · have h' : c = cd.name ∨ ∃ a ∈ rest, a.name = c := by simpa using h
        rcases h' with h1 | ⟨a, ha, hnamea⟩
        · exact absurd h1.symm hn
        · have hc : c ∈ rest.map (fun cd => cd.name) := List.mem_map.mpr ⟨a, ha, hnamea⟩
          have := findColIdx_isSome c rest hc
          simp only [findColIdx, hn, if_false]
          simpa using this

theorem resolve_names (cds : List ColumnDefinition) :
    (cols : List String) → (∀ c ∈ cols, c ∈ cds.map (fun cd => cd.name)) →
      missingNames cds cols = [] ∧
      ((resolveCols cds cols).filterMap (fun p => p.2)).map (fun cd => cd.name) = cols
  | [], _ => by simp [missingNames, resolveCols]
  | c :: cols, h => by
      have hc := h c (by simp)
      obtain ⟨i, hi⟩ := Option.isSome_iff_exists.mp (findColIdx_isSome c cds hc)
      obtain ⟨cd, hget, hname⟩ := findColIdx_get c cds i hi
      have ih := resolve_names cds cols (fun x hx => h x (by simp [hx]))
      have hbind : ((findColIdx c cds).bind fun j => cds[j]?) = some cd := by
        rw [hi]; simpa using hget
      refine ⟨?_, ?_⟩
      · have h1 := ih.1
        simp only [missingNames, resolveCols, List.filter_cons, List.map_cons] at h1 ⊢
        simpa [hbind] using h1
      · have h2 := ih.2
        simp only [resolveCols, List.filterMap_cons, hbind, List.map_cons]
        simp [hname, h2]

/-- C1.  For every stored table and every projection whose names are all
declared columns, `select_all_from` returns one output column per
projection entry, in projection order, the i-th returned definition named
`projection[i]` (duplicates each yielding their own column), and every
returned row is the stored row projected cell-wise in that same order. -/
theorem select_all_from_projection_verbatim (st : FrontendStorage) (s t : String)
    (td : TableData) (cols : List String) (ht : lookupTable st s t = some td)
    (hcols : ∀ c ∈ cols, c ∈ td.columns.map (fun cd => cd.name)) :
    ∃ defs,
      selectAllFrom st s t cols =
        .ok (defs, td.rows.map (fun r => cols.map (fun c => cellAt td.columns r c))) ∧
      defs.map (fun cd => cd.name) = cols ∧ defs.length = cols.length := by
  obtain ⟨tables, h1, h2⟩ := Option.bind_eq_some.mp ht
  obtain ⟨hmiss, hnames⟩ := resolve_names td.columns cols hcols
  refine ⟨(resolveCols td.columns cols).filterMap (fun p => p.2), ?_, hnames, ?_⟩
  · simp [selectAllFrom, h1, h2, selectFromTable, hmiss]
  · have := congrArg List.length hnames
    simpa using this

/-- Concrete table mirroring the storage test fixture
`with_small_ints_table` after three inserts. -/
def smallIntsTable : TableData :=
  ⟨[⟨"column_1", .smallInt⟩, ⟨"column_2", .smallInt⟩, ⟨"column_3", .smallInt⟩],
   [["1", "2", "3"], ["4", "5", "6"], ["7", "8", "9"]]⟩

/-- Storage holding `smallIntsTable` under `schema_name.table_name`. -/
def smallIntsStorage : FrontendStorage :=
  ⟨[("schema_name", [("table_name", smallIntsTable)])]⟩

/-- Witness for C1 at the duplicated projection of the storage test
`select_with_column_name_duplication`. -/
theorem select_all_from_projection_verbatim_witness :
    ∃ defs,
      selectAllFrom smallIntsStorage "schema_name" "table_name"
          ["column_3", "column_2", "column_1", "column_3", "column_2"] =
        .ok (defs, smallIntsTable.rows.map (fun r =>
          ["column_3", "column_2", "column_1", "column_3", "column_2"].map
            (fun c => cellAt smallIntsTable.columns r c))) ∧
      defs.map (fun cd => cd.name) =
        ["column_3", "column_2", "column_1", "column_3", "column_2"] ∧
      defs.length = ["column_3", "column_2", "column_1", "column_3", "column_2"].length :=
  select_all_from_projection_verbatim smallIntsStorage "schema_name" "table_name"
    smallIntsTable ["column_3", "column_2", "column_1", "column_3", "column_2"]
    (by decide) (by decide)


/-! ## Claim C2: insertion order is the observable scan order -/

theorem checkRows_ok (cols : List ColumnDefinition) :
    (rows : List (List String)) → (idx : Nat) → (rs : List (List String)) →
      checkRows cols rows idx = .ok rs →
      rs = rows.map (serializeRow cols) ∧ ∀ r ∈ rows, r.length = cols.length
  | [], _, rs, h => by
      simp [checkRows] at h
      subst h
      simp
  | row :: rest, idx, rs, h => by
      by_cases hl : row.length = cols.length
      · simp only [checkRows, hl, ne_eq, not_true_eq_false, if_false] at h
        match hv : rowViolations cols row with
        | [] =>
            rw [hv] at h
            match hrec : checkRows cols rest (idx + 1) with
            | .ok rs' =>
                rw [hrec] at h
                simp only [Except.map] at h
                obtain ⟨hrs, hlen⟩ := checkRows_ok cols rest (idx + 1) rs' hrec
                cases h
                constructor
                · simp [hrs]
                · intro r hr
                  rcases List.mem_cons.mp hr with h1 | h1
                  · rw [h1]; exact hl
                  · exact hlen r h1
            | .error e => rw [hrec] at h; simp [Except.map] at h
        | e :: es => rw [hv] at h; simp at h
      · simp [checkRows, hl] at h

theorem lookup_insert (st st' : FrontendStorage) (s t : String) (td : TableData)
    (batch : List (List String)) (ht : lookupTable st s t = some td)
    (hins : insertInto st s t [] batch = .ok st') :
    lookupTable st' s t = some ⟨td.columns, td.rows ++ batch.map (serializeRow td.columns)⟩ ∧
    ∀ r ∈ batch, r.length = td.columns.length := by
  obtain ⟨tables, h1, h2⟩ := Option.bind_eq_some.mp ht
  simp only [insertInto, h1, h2, insertIntoTable, List.isEmpty_nil, if_true] at hins
  match hchk : checkRows td.columns batch 0 with
  | .ok rs =>
      rw [hchk] at hins
      simp only [Except.map] at hins
      obtain ⟨hrs, hlen⟩ := checkRows_ok td.columns batch 0 rs hchk
      cases hins
      refine ⟨?_, hlen⟩
      simp [lookupTable, alookup_aupdate, h1, h2, hrs]
  | .error e => rw [hchk] at hins; simp [Except.map] at hins

/-- One `insert_into` call per batch, each with the empty (all-columns)
projection, mirroring the repeated `insert_into` calls of the storage
tests. -/
def insertSeq (s t : String) : FrontendStorage → List (List (List String)) →
    Except OperationOnTableError FrontendStorage
  | st, [] => .ok st
  | st, batch :: rest =>
      match insertInto st s t [] batch with
      | .error e => .error e
      | .ok st' => insertSeq s t st' rest

theorem insertSeq_rows (s t : String) :
    (batches : List (List (List String))) → (st st' : FrontendStorage) → (td : TableData) →
      lookupTable st s t = some td → insertSeq s t st batches = .ok st' →
      lookupTable st' s t =
          some ⟨td.columns, td.rows ++ batches.flatten.map (serializeRow td.columns)⟩ ∧
        ∀ r ∈ batches.flatten, r.length = td.columns.length
  | [], st, st', td, ht, hseq => by
      simp only [insertSeq] at hseq
      cases hseq
      simpa using ht
  | batch :: rest, st, st', td, ht, hseq => by
      simp only [insertSeq] at hseq
      match hins : insertInto st s t [] batch with
      | .error e => rw [hins] at hseq; simp at hseq
      | .ok st1 =>
          rw [hins] at hseq
          obtain ⟨ht1, hlen1⟩ := lookup_insert st st1 s t td batch ht hins
          obtain ⟨ht', hlen'⟩ := insertSeq_rows s t rest st1 st'
            ⟨td.columns, td.rows ++ batch.map (serializeRow td.columns)⟩ ht1 hseq
          constructor
          · simpa [List.append_assoc] using ht'
          · intro r hr
            rcases (by simpa using hr : r ∈ batch ∨ ∃ l ∈ rest, r ∈ l) with h1 | ⟨l, hl, h1⟩
            · exact hlen1 r h1
            · exact hlen' r (by simp only [List.mem_flatten]; exact ⟨l, hl, h1⟩)

theorem cellAt_head (cd : ColumnDefinition) (rest : List ColumnDefinition)
    (x : String) (xs : List String) : cellAt (cd :: rest) (x :: xs) cd.name = x := by
  simp [cellAt, findColIdx]

theorem cellAt_cons_ne (cd : ColumnDefinition) (rest : List ColumnDefinition)
    (x : String) (xs : List String) (c : String) (h : c ≠ cd.name) :
    cellAt (cd :: rest) (x :: xs) c = cellAt rest xs c := by
  have hne : ¬ cd.name = c := fun hp => h hp.symm
  cases hf : findColIdx c rest with
  | none => simp [cellAt, findColIdx, hne, hf]
  | some i => simp [cellAt, findColIdx, hne, hf]

theorem fullProjection (cds : List ColumnDefinition)
    (h : (cds.map (fun cd => cd.name)).Nodup) :
    (r : List String) → r.length = cds.length →
      (cds.map (fun cd => cd.name)).map (fun c => cellAt cds r c) = r := by
  induction cds with
  | nil => intro r hr; simp at hr; simp [hr]
  | cons cd rest ih =>
      intro r hr
      match r with
      | [] => simp at hr
      | x :: xs =>
          have h' := h
          rw [List.map_cons] at h'
          have hnd := List.nodup_cons.mp h'
          simp only [List.map_cons, cellAt_head]
          have htail : (rest.map (fun cd => cd.name)).map
              (fun c => cellAt (cd :: rest) (x :: xs) c) =
              (rest.map (fun cd => cd.name)).map (fun c => cellAt rest xs c) := by
            apply List.map_congr_left
            intro c hc
            apply cellAt_cons_ne
            intro he
            exact hnd.1 (he ▸ hc)
          rw [htail, ih hnd.2 xs (by simpa using hr)]

theorem serializeRow_length (cds : List ColumnDefinition) (r : List String)
    (hr : r.length = cds.length) : (serializeRow cds r).length = cds.length := by
  simp [serializeRow, hr]

/-- C2.  Starting from a table with no rows, after any sequence of
successful `insert_into` calls a `select_all_from` over all declared
columns returns exactly the inserted source rows (in stored form), one
output row per inserted row, in insertion order. -/
theorem insert_then_select_returns_rows_in_insertion_order
    (st st' : FrontendStorage) (s t : String) (td : TableData)
    (batches : List (List (List String)))
    (ht : lookupTable st s t = some td) (hempty : td.rows = [])
    (hnodup : (td.columns.map (fun cd => cd.name)).Nodup)
    (hseq : insertSeq s t st batches = .ok st') :
    ∃ defs,
      selectAllFrom st' s t (td.columns.map (fun cd => cd.name)) =
        .ok (defs, batches.flatten.map (fun r => serializeRow td.columns r)) ∧
      (batches.flatten.map (fun r => serializeRow td.columns r)).length =
        batches.flatten.length := by
  obtain ⟨ht', hlen⟩ := insertSeq_rows s t batches st st' td ht hseq
  rw [hempty] at ht'
  obtain ⟨tables, h1, h2⟩ := Option.bind_eq_some.mp ht'
  obtain ⟨hmiss, hnames⟩ := resolve_names td.columns (td.columns.map (fun cd => cd.name))
    (fun c hc => hc)
  refine ⟨(resolveCols td.columns (td.columns.map (fun cd => cd.name))).filterMap
    (fun p => p.2), ?_, by rw [List.length_map]⟩
  simp only [selectAllFrom, h1, h2, selectFromTable, hmiss, List.nil_append]
  congr 2
  rw [List.map_map]
  apply List.map_congr_left
  intro r hr
  simp only [Function.comp_apply]
  exact fullProjection td.columns hnodup (serializeRow td.columns r)
    (serializeRow_length td.columns r (hlen r hr))

/-- Empty three-column table under `schema_name.table_name`, as the
test fixture `with_small_ints_table` creates it. -/
def smallIntsEmptyStorage : FrontendStorage :=
  ⟨[("schema_name", [("table_name",
      ⟨[⟨"column_1", .smallInt⟩, ⟨"column_2", .smallInt⟩, ⟨"column_3", .smallInt⟩], []⟩)])]⟩

/-- Witness for C2 at the three single-row inserts of the storage test
`select_all_columns_reordered_from_table_with_multiple_columns`. -/
theorem insert_then_select_returns_rows_in_insertion_order_witness :
    ∃ defs,
      selectAllFrom smallIntsStorage "schema_name" "table_name"
          (([⟨"column_1", .smallInt⟩, ⟨"column_2", .smallInt⟩,
             ⟨"column_3", .smallInt⟩] : List ColumnDefinition).map (fun cd => cd.name)) =
        .ok (defs,
          ([[["1", "2", "3"]], [["4", "5", "6"]], [["7", "8", "9"]]] :
              List (List (List String))).flatten.map
            (fun r => serializeRow
              [⟨"column_1", .smallInt⟩, ⟨"column_2", .smallInt⟩, ⟨"column_3", .smallInt⟩] r)) ∧
      (([[["1", "2", "3"]], [["4", "5", "6"]], [["7", "8", "9"]]] :
          List (List (List String))).flatten.map
        (fun r => serializeRow
          [⟨"column_1", .smallInt⟩, ⟨"column_2", .smallInt⟩, ⟨"column_3", .smallInt⟩] r)).length =
        ([[["1", "2", "3"]], [["4", "5", "6"]], [["7", "8", "9"]]] :
          List (List (List String))).flatten.length :=
  insert_then_select_returns_rows_in_insertion_order
    smallIntsEmptyStorage smallIntsStorage "schema_name" "table_name"
    ⟨[⟨"column_1", .smallInt⟩, ⟨"column_2", .smallInt⟩, ⟨"column_3", .smallInt⟩], []⟩
    [[["1", "2", "3"]], [["4", "5", "6"]], [["7", "8", "9"]]]
    (by decide) rfl (by decide) (by rfl)

/-! ## Claim C10: VarChar values lose trailing spaces on round-trip -/

theorem dropWhile_length_le {α : Type} (p : α → Bool) :
    (l : List α) → (l.dropWhile p).length ≤ l.length
  | [] => Nat.le_refl 0
  | a :: l => by
      rw [List.dropWhile_cons]
      by_cases h : p a = true
      · simp only [h, if_true]
        exact Nat.le_succ_of_le (dropWhile_length_le p l)
      · simp [h]

theorem trimEndSpaces_eq_self (v : String) (h : v.data.reverse.head? ≠ some ' ') :
    trimEndSpaces v = v := by
  have hdata : (v.data.reverse.dropWhile (fun c => c = ' ')).reverse = v.data := by
    cases hv : v.data.reverse with
    | nil =>
        have : v.data = [] := by simpa using congrArg List.reverse hv
        simp [this]
    | cons c cs =>
        have hc : ¬ c = ' ' := by
          intro he
          exact h (by rw [hv, he]; rfl)
        rw [List.dropWhile_cons, if_neg (by simpa using hc), ← hv, List.reverse_reverse]
  cases v with
  | mk l => exact congrArg String.mk hdata

theorem trimEndSpaces_ne_self (v : String) (h : v.data.reverse.head? = some ' ') :
    trimEndSpaces v ≠ v := by
  intro heq
  have hdata : (v.data.reverse.dropWhile (fun c => c = ' ')).reverse = v.data :=
    congrArg String.data heq
  cases hv : v.data.reverse with
  | nil => rw [hv] at h; simp at h
  | cons c cs =>
      have hc : c = ' ' := by rw [hv] at h; simpa using h
      have hlen1 : v.data.length = cs.length + 1 := by
        have := congrArg List.length hv
        simpa using this
      have hlen2 := congrArg List.length hdata
      rw [hv, List.dropWhile_cons, if_pos (by simp [hc])] at hlen2
      simp only [List.length_reverse] at hlen2
      have := dropWhile_length_le (fun c => decide (c = ' ')) cs
      omega

/-- C10.  For a `VarChar(n)` column, inserting a valid value and selecting
it back returns the value with its trailing spaces removed: the round-trip
is not byte-identical exactly when the value ends in a space, and values
without trailing spaces round-trip verbatim. -/
theorem varchar_roundtrip_trims_trailing_spaces (s t colName v : String) (n : Nat)
    (hlen : v.length ≤ n) :
    insertInto ⟨[(s, [(t, ⟨[⟨colName, .varChar n⟩], []⟩)])]⟩ s t [] [[v]] =
      .ok ⟨[(s, [(t, ⟨[⟨colName, .varChar n⟩], [[trimEndSpaces v]]⟩)])]⟩ ∧
    selectAllFrom ⟨[(s, [(t, ⟨[⟨colName, .varChar n⟩], [[trimEndSpaces v]]⟩)])]⟩ s t
        [colName] =
      .ok ([⟨colName, .varChar n⟩], [[trimEndSpaces v]]) ∧
    (v.data.reverse.head? = some ' ' → trimEndSpaces v ≠ v) ∧
    (v.data.reverse.head? ≠ some ' ' → trimEndSpaces v = v) := by
  have hnl : ¬ n < v.length := by omega
  refine ⟨?_, ?_, trimEndSpaces_ne_self v, trimEndSpaces_eq_self v⟩
  · simp [insertInto, alookup, insertIntoTable, checkRows, rowViolations, validateValue,
      hnl, serializeRow, serializeCell, aupdate, Except.map]
  · simp [selectAllFrom, alookup, selectFromTable, missingNames, resolveCols, findColIdx,
      cellAt]

/-- Witness for C10 at the `var_char_20` value of the storage test
`select_different_character_strings_types`. -/
theorem varchar_roundtrip_trims_trailing_spaces_witness :
    insertInto ⟨[("schema_name", [("table_name",
        ⟨[⟨"var_char_20", .varChar 20⟩], []⟩)])]⟩ "schema_name" "table_name" []
        [["1234567890     "]] =
      .ok ⟨[("schema_name", [("table_name",
        ⟨[⟨"var_char_20", .varChar 20⟩], [[trimEndSpaces "1234567890     "]]⟩)])]⟩ ∧
    selectAllFrom ⟨[("schema_name", [("table_name",
        ⟨[⟨"var_char_20", .varChar 20⟩], [[trimEndSpaces "1234567890     "]]⟩)])]⟩
        "schema_name" "table_name" ["var_char_20"] =
      .ok ([⟨"var_char_20", .varChar 20⟩], [[trimEndSpaces "1234567890     "]]) ∧
    ((("1234567890     " : String)).data.reverse.head? = some ' ' →
      trimEndSpaces "1234567890     " ≠ "1234567890     ") ∧
    ((("1234567890     " : String)).data.reverse.head? ≠ some ' ' →
      trimEndSpaces "1234567890     " = "1234567890     ") :=
  varchar_roundtrip_trims_trailing_spaces "schema_name" "table_name" "var_char_20"
    "1234567890     " 20 (by decide)

/-! ## Wire listener (`src/protocol/src/listener.rs`) -/

/-- A wire byte (a `Nat` kept below 256 by the frame encoders). -/
abbrev Byte := Nat

/-- `SslMode` recorded in the connection properties. -/
inductive SslMode
  | disable
  | require
deriving DecidableEq, Repr

/-- Server-to-client messages the handshake writes; each constructor
stands for the byte encoding `Message::X.as_vec()` of `messages.rs`. -/
inductive WireMsg
  | authenticationOk
  | authenticationCleartextPassword
  | notice
deriving DecidableEq, Repr

/-- `Secure` capability flags from `listener.rs`. -/
structure Secure where
  ssl : Bool
  gssenc : Bool
deriving DecidableEq, Repr

/-- `Secure::none()`. -/
def Secure.noSecurity : Secure := ⟨false, false⟩

/-- Connection properties `(version, params, ssl_mode)` as returned by
`Connection::new` and observed through `connection.properties()`.
Parameter keys and values are kept as byte lists; `str::from_utf8` on the
wire tokens is modelled as the identity embedding. -/
structure Connection where
  version : Int
  params : List (List Byte × List Byte)
  sslMode : SslMode
deriving DecidableEq, Repr

def VERSION_1 : Int := 65536
def VERSION_2 : Int := 131072
def VERSION_3 : Int := 196608
def VERSION_CANCEL : Int := 80877102
def VERSION_SSL : Int := 80877103
def VERSION_GSSENC : Int := 80877104

/-- Big-endian 32-bit value of four bytes (`NetworkEndian::read_u32`). -/
def beU32 (b0 b1 b2 b3 : Byte) : Nat :=
  (b0 % 256) * 16777216 + (b1 % 256) * 65536 + (b2 % 256) * 256 + b3 % 256

/-- Two's-complement signed reading of a 32-bit value
(`NetworkEndian::read_i32`). -/
def toI32 (n : Nat) : Int :=
  if n % 4294967296 < 2147483648 then ((n % 4294967296 : Nat) : Int)
  else ((n % 4294967296 : Nat) : Int) - 4294967296

/-- `read_i32` on the first four bytes of a buffer.  The source panics on a
buffer shorter than four bytes; that case is mapped to 0 and never reached
by the theorems below. -/
def readI32 : List Byte → Int
  | b0 :: b1 :: b2 :: b3 :: _ => toI32 (beU32 b0 b1 b2 b3)
  | _ => 0

/-- `read_len`: read a four-byte big-endian length and subtract the four
length bytes themselves.  Returns the remaining stream; `none` models the
I/O error of a truncated read. -/
def readLen (s : List Byte) : Option (Nat × List Byte) :=
  match s with
  | b0 :: b1 :: b2 :: b3 :: rest => some (beU32 b0 b1 b2 b3 - 4, rest)
  | _ => none

/-- `read_exact` of `n` bytes; `none` models the I/O error of a truncated
read. -/
def readExact (n : Nat) (s : List Byte) : Option (List Byte × List Byte) :=
  if n ≤ s.length then some (s.take n, s.drop n) else none

/-- `slice::split` on the NUL byte: the (possibly empty) chunks between
zero bytes, one more chunk than there are zeros. -/
def splitOnNul : List Byte → List (List Byte)
  | [] => [[]]
  | b :: rest =>
      if b = 0 then [] :: splitOnNul rest
      else
        match splitOnNul rest with
        | [] => [[b]]
        | t :: ts => (b :: t) :: ts

/-- `Itertools::tuples()` over a string iterator: consecutive elements
grouped pairwise, any unpaired trailing element dropped. -/
def pairUp {α : Type} : List α → List (α × α)
  | a :: b :: rest => (a, b) :: pairUp rest
  | _ => []

/-- Non-empty NUL-separated tokens of a startup body (the
`split` / `filter` stage of `accept`). -/
def startupTokens (body : List Byte) : List (List Byte) :=
  (splitOnNul body).filter (fun t => ! t.isEmpty)

/-- The parameter-parsing pipeline of `accept`:
`split(NUL) → filter(non-empty) → from_utf8 → tuples()`. -/
def parseParams (body : List Byte) : List (List Byte × List Byte) :=
  pairUp (startupTokens body)

/-- Outcome of one `accept` call, flattening the source's
`io::Result<Result<Connection>>` plus its `unimplemented!` panics. -/
inductive AcceptOutcome
  | ioError
  | unimplementedUpgrade
  | unsupportedRequest
  | unsupportedVersion
  | unrecognizedVersion
  | connected (conn : Connection)
deriving DecidableEq, Repr

/-- `QueryListener::accept` over an incoming byte stream, returning the
messages written to the socket (in order) and the outcome.  Translated
arm by arm from `listener.rs`: a v3 startup parses parameters and replies
`AuthenticationOk`; an SSL request on a non-TLS listener replies `Notice`,
reads a second frame (whose version is read but not checked), replies
`AuthenticationCleartextPassword`, consumes one tag byte and one password
frame whose contents are ignored, replies `AuthenticationOk`, and connects
with `SslMode::Require`; GSSENC, cancel, v2, v1 and unknown versions
return the corresponding errors. -/
def accept (secure : Secure) (input : List Byte) : List WireMsg × AcceptOutcome :=
  match readLen input with
  | none => ([], .ioError)
  | some (len, s1) =>
      match readExact len s1 with
      | none => ([], .ioError)
      | some (msg, s2) =>
          let version := readI32 msg
          let body := msg.drop 4
          if version = VERSION_3 then
            ([.authenticationOk], .connected ⟨version, parseParams body, .disable⟩)
          else if version = VERSION_SSL then
            if secure.ssl then ([], .unimplementedUpgrade)
            else
              match readLen s2 with
              | none => ([.notice], .ioError)
              | some (len2, s3) =>
                  match readExact len2 s3 with
                  | none => ([.notice], .ioError)
                  | some (msg2, s4) =>
                      let version2 := readI32 msg2
                      let parsed := parseParams (msg2.drop 4)
                      match readExact 1 s4 with
                      | none => ([.notice, .authenticationCleartextPassword], .ioError)
                      | some (_, s5) =>
                          match readLen s5 with
                          | none => ([.notice, .authenticationCleartextPassword], .ioError)
                          | some (len3, s6) =>
                              match readExact len3 s6 with
                              | none =>
                                  ([.notice, .authenticationCleartextPassword], .ioError)
                              | some (_, _) =>
                                  ([.notice, .authenticationCleartextPassword,
                                    .authenticationOk],
                                   .connected ⟨version2, parsed, .require⟩)
          else if version = VERSION_GSSENC then
            if secure.gssenc then ([], .unimplementedUpgrade)
            else ([], .unsupportedRequest)
          else if version = VERSION_CANCEL then ([], .unsupportedVersion)
          else if version = VERSION_2 then ([], .unsupportedVersion)
          else if version = VERSION_1 then ([], .unsupportedVersion)
          else ([], .unrecognizedVersion)

/-! ### Frame encoders used to state the handshake claims -/

/-- Big-endian four-byte encoding of a 32-bit value. -/
def encodeU32 (n : Nat) : List Byte :=
  [n / 16777216 % 256, n / 65536 % 256, n / 256 % 256, n % 256]

/-- A startup-style frame: four-byte length (including itself) then body. -/
def frameOf (body : List Byte) : List Byte :=
  encodeU32 (body.length + 4) ++ body

/-- Wire layout of startup parameters: each string NUL-terminated, then a
final NUL (spec section 4.1). -/
def encodeParamPairs : List (List Byte × List Byte) → List Byte
  | [] => [0]
  | (k, v) :: rest => k ++ 0 :: (v ++ 0 :: encodeParamPairs rest)

/-- Body of a v3 startup frame: version then encoded parameters. -/
def startupBody (version : Nat) (ps : List (List Byte × List Byte)) : List Byte :=
  encodeU32 version ++ encodeParamPairs ps

/-- Well-formed startup parameters: every key and value is a non-empty
token free of NUL bytes. -/
def paramsWF (ps : List (List Byte × List Byte)) : Prop :=
  ∀ p ∈ ps, p.1 ≠ [] ∧ p.2 ≠ [] ∧ (∀ b ∈ p.1, b ≠ 0) ∧ ∀ b ∈ p.2, b ≠ 0

theorem beU32_digits (n : Nat) (h : n < 4294967296) :
    beU32 (n / 16777216 % 256) (n / 65536 % 256) (n / 256 % 256) (n % 256) = n := by
  unfold beU32
  omega

theorem readLen_frame (body rest : List Byte) (h : body.length + 4 < 4294967296) :
    readLen (frameOf body ++ rest) = some (body.length, body ++ rest) := by
  simp only [frameOf, encodeU32, List.cons_append, List.nil_append, readLen]
  rw [beU32_digits (body.length + 4) h]
  simp

theorem take_append_self {α : Type} : (a b : List α) → (a ++ b).take a.length = a
  | [], _ => by simp
  | x :: a, b => by simp [take_append_self a b]

theorem drop_append_self {α : Type} : (a b : List α) → (a ++ b).drop a.length = b
  | [], _ => by simp
  | x :: a, b => by simp [drop_append_self a b]

theorem readExact_append (a b : List Byte) : readExact a.length (a ++ b) = some (a, b) := by
  have h1 : a.length ≤ (a ++ b).length := by simp
  simp [readExact, h1, take_append_self a b, drop_append_self a b]

theorem readExact_one (x : Byte) (l : List Byte) : readExact 1 (x :: l) = some ([x], l) := by
  simp [readExact, Nat.succ_le_succ]

theorem readI32_encode (v : Nat) (hv : v < 2147483648) (tail : List Byte) :
    readI32 (encodeU32 v ++ tail) = (v : Int) := by
  have h32 : v < 4294967296 := by omega
  simp only [encodeU32, List.cons_append, List.nil_append, readI32]
  rw [beU32_digits v h32]
  unfold toI32
  rw [Nat.mod_eq_of_lt h32, if_pos hv]

theorem drop4_encode (x : Nat) (body : List Byte) :
    (encodeU32 x ++ body).drop 4 = body := by
  simp [encodeU32]

theorem splitOnNul_ne_nil : (l : List Byte) → splitOnNul l ≠ []
  | [] => by simp [splitOnNul]
  | b :: rest => by
      by_cases h : b = 0
      · simp [splitOnNul, h]
      · simp only [splitOnNul, h, if_false]
        match hs : splitOnNul rest with
        | [] => simp
        | t :: ts => simp

theorem splitOnNul_append_zero (b : List Byte) :
    (a : List Byte) → (∀ x ∈ a, x ≠ 0) →
      splitOnNul (a ++ 0 :: b) = a :: splitOnNul b
  | [], _ => by simp [splitOnNul]
  | x :: a, ha => by
      have hx : ¬ x = 0 := ha x (by simp)
      have ih := splitOnNul_append_zero b a (fun y hy => ha y (by simp [hy]))
      simp only [List.cons_append, splitOnNul, hx, if_false, List.append_eq, ih]

theorem parseParams_encode :
    (ps : List (List Byte × List Byte)) → paramsWF ps →
      parseParams (encodeParamPairs ps) = ps ∧
      startupTokens (encodeParamPairs ps) =
        (ps.map (fun p => [p.1, p.2])).flatten
  | [], _ => by simp [parseParams, encodeParamPairs, startupTokens, splitOnNul, pairUp]
  | (k, v) :: rest, h => by
      obtain ⟨hk, hv, hk0, hv0⟩ := h (k, v) (by simp)
      have ih := parseParams_encode rest (fun p hp => h p (by simp [hp]))
      have hsplit : splitOnNul (k ++ 0 :: (v ++ 0 :: encodeParamPairs rest)) =
          k :: v :: splitOnNul (encodeParamPairs rest) := by
        rw [splitOnNul_append_zero _ k hk0, splitOnNul_append_zero _ v hv0]
      have htok : startupTokens (encodeParamPairs ((k, v) :: rest)) =
          k :: v :: startupTokens (encodeParamPairs rest) := by
        simp only [encodeParamPairs, startupTokens, hsplit, List.filter_cons]
        simp [hk, hv]
      constructor
      · have ih1 := ih.1
        simp only [parseParams] at ih1
        simp only [parseParams, htok, pairUp, ih1]
      · simp [htok, ih.2]

theorem readI32_encode_nil (v : Nat) (hv : v < 2147483648) :
    readI32 (encodeU32 v) = (v : Int) := by
  have h := readI32_encode v hv []
  simpa using h

/-! ## Claim C3: v3 startup handshake -/

/-- C3.  A first frame carrying the v3 sentinel 196608 makes `accept`
write exactly one `AuthenticationOk` and return a connection whose
properties are the v3 version, the startup parameters as the input ordered
pair list (duplicates and order preserved), and `SslMode::Disable`. -/
theorem accept_v3_startup (secure : Secure) (ps : List (List Byte × List Byte))
    (rest : List Byte) (hwf : paramsWF ps)
    (hlen : (encodeParamPairs ps).length + 8 < 4294967296) :
    accept secure (frameOf (startupBody 196608 ps) ++ rest) =
      ([.authenticationOk], .connected ⟨VERSION_3, ps, .disable⟩) := by
  have hb : (encodeU32 196608 ++ encodeParamPairs ps).length + 4 < 4294967296 := by
    simp only [List.length_append, encodeU32, List.length_cons, List.length_nil]
    omega
  simp only [startupBody, accept, readLen_frame _ rest hb, readExact_append,
    readI32_encode 196608 (by norm_num), drop4_encode, (parseParams_encode ps hwf).1]
  simp [VERSION_3]

/-- Witness for C3 with a duplicated parameter key. -/
theorem accept_v3_startup_witness :
    accept Secure.noSecurity
        (frameOf (startupBody 196608 [([117], [1]), ([117], [2])]) ++ []) =
      ([.authenticationOk],
       .connected ⟨VERSION_3, [([117], [1]), ([117], [2])], .disable⟩) :=
  accept_v3_startup Secure.noSecurity [([117], [1]), ([117], [2])] []
    (by unfold paramsWF; decide) (by decide)

/-! ## Claim C4: SSL request on a non-TLS listener -/

/-- C4.  When TLS is not configured, an `SSLRequest` first frame makes
`accept` write the one-byte `Notice`, and with a v3 startup as the next
frame it writes `AuthenticationCleartextPassword`, consumes one password
frame whose contents are ignored, writes `AuthenticationOk`, and returns a
connection with the parsed startup parameters and `SslMode::Require`. -/
theorem accept_ssl_request_then_v3 (secure : Secure) (ps : List (List Byte × List Byte))
    (tag : Byte) (pw rest : List Byte) (hssl : secure.ssl = false) (hwf : paramsWF ps)
    (hlen : (encodeParamPairs ps).length + 8 < 4294967296)
    (hpw : pw.length + 4 < 4294967296) :
    accept secure
        (frameOf (encodeU32 80877103) ++
          (frameOf (startupBody 196608 ps) ++ (tag :: (frameOf pw ++ rest)))) =
      ([.notice, .authenticationCleartextPassword, .authenticationOk],
       .connected ⟨VERSION_3, ps, .require⟩) := by
  have h1 : (encodeU32 80877103).length + 4 < 4294967296 := by
    simp [encodeU32]
  have hb : (encodeU32 196608 ++ encodeParamPairs ps).length + 4 < 4294967296 := by
    simp only [List.length_append, encodeU32, List.length_cons, List.length_nil]
    omega
  simp only [accept, startupBody, readLen_frame _ _ h1, readExact_append,
    readI32_encode_nil 80877103 (by norm_num),
    readLen_frame _ _ hb, readI32_encode 196608 (by norm_num), drop4_encode,
    (parseParams_encode ps hwf).1, readExact_one, readLen_frame pw rest hpw, hssl]
  simp [VERSION_3, VERSION_SSL]

/-- Witness for C4 at a one-parameter startup and a one-byte password. -/
theorem accept_ssl_request_then_v3_witness :
    accept Secure.noSecurity
        (frameOf (encodeU32 80877103) ++
          (frameOf (startupBody 196608 [([117], [112])]) ++
            (112 :: (frameOf [49] ++ [])))) =
      ([.notice, .authenticationCleartextPassword, .authenticationOk],
       .connected ⟨VERSION_3, [([117], [112])], .require⟩) :=
  accept_ssl_request_then_v3 Secure.noSecurity [([117], [112])] 112 [49] []
    rfl (by unfold paramsWF; decide) (by decide) (by decide)

/-! ## Claim C5: odd startup token count drops the trailing token -/

theorem pairUp_length {α : Type} : (l : List α) → (pairUp l).length = l.length / 2
  | [] => by simp [pairUp]
  | [_] => by simp [pairUp]
  | _ :: _ :: rest => by
      simp only [pairUp, List.length_cons]
      rw [pairUp_length rest]
      omega

theorem pairUp_dropLast_of_odd {α : Type} : (l : List α) → l.length % 2 = 1 →
    pairUp l = pairUp l.dropLast
  | [], h => by simp at h
  | [_], _ => rfl
  | a :: b :: rest, h => by
      have hr : rest.length % 2 = 1 := by
        simp only [List.length_cons] at h
        omega
      cases rest with
      | nil => simp at hr
      | cons c rest' =>
          have ih := pairUp_dropLast_of_odd (c :: rest') hr
          show (a, b) :: pairUp (c :: rest') = pairUp ((a :: b :: c :: rest').dropLast)
          rw [show (a :: b :: c :: rest').dropLast = a :: b :: (c :: rest').dropLast from rfl]
          show (a, b) :: pairUp (c :: rest') = (a, b) :: pairUp ((c :: rest').dropLast)
          rw [ih]

/-- C5.  A v3 startup frame whose body splits on NUL into an odd number of
non-empty tokens still yields a connection (no error): its parameter list
is the tokens without the unpaired trailing one, grouped pairwise, so it
holds floor(tokens/2) pairs. -/
theorem accept_v3_odd_token_drops_trailing (secure : Secure) (body rest : List Byte)
    (hodd : (startupTokens body).length % 2 = 1)
    (hlen : body.length + 8 < 4294967296) :
    accept secure (frameOf (encodeU32 196608 ++ body) ++ rest) =
      ([.authenticationOk],
       .connected ⟨VERSION_3, pairUp ((startupTokens body).dropLast), .disable⟩) ∧
    ((startupTokens body).dropLast).length = (startupTokens body).length - 1 ∧
    (pairUp ((startupTokens body).dropLast)).length = (startupTokens body).length / 2 := by
  have hb : (encodeU32 196608 ++ body).length + 4 < 4294967296 := by
    simp only [List.length_append, encodeU32, List.length_cons, List.length_nil]
    omega
  refine ⟨?_, by simp, ?_⟩
  · simp only [accept, readLen_frame _ rest hb, readExact_append,
      readI32_encode 196608 (by norm_num), drop4_encode]
    rw [← pairUp_dropLast_of_odd (startupTokens body) hodd]
    simp [VERSION_3, parseParams]
  · rw [← pairUp_dropLast_of_odd (startupTokens body) hodd, pairUp_length]

/-- Witness for C5 at a startup body with three non-empty tokens. -/
theorem accept_v3_odd_token_drops_trailing_witness :
    accept Secure.noSecurity (frameOf (encodeU32 196608 ++ [117, 0, 112, 0, 122, 0]) ++ []) =
      ([.authenticationOk],
       .connected ⟨VERSION_3,
         pairUp ((startupTokens [117, 0, 112, 0, 122, 0]).dropLast), .disable⟩) ∧
    ((startupTokens [117, 0, 112, 0, 122, 0]).dropLast).length =
      (startupTokens [117, 0, 112, 0, 122, 0]).length - 1 ∧
    (pairUp ((startupTokens [117, 0, 112, 0, 122, 0]).dropLast)).length =
      (startupTokens [117, 0, 112, 0, 122, 0]).length / 2 :=
  accept_v3_odd_token_drops_trailing Secure.noSecurity [117, 0, 112, 0, 122, 0] []
    (by decide) (by decide)

/-! ## INSERT command executor (`src/sql_engine/src/dml/insert.rs`) -/

/-- Subset of `sqlparser::ast::Value` reaching the insert path. -/
inductive AstValue
  | number (text : String)
  | singleQuotedString (text : String)
  | boolean (b : Bool)
  | null
deriving DecidableEq, Repr

/-- Subset of `sqlparser::ast::DataType` usable in a CAST. -/
inductive AstDataType
  | boolean
  | smallInt
  | intType
  | bigInt
deriving DecidableEq, Repr

/-- `sqlparser::ast::UnaryOperator` subset. -/
inductive AstUnaryOp
  | plus
  | minus
  | notOp
deriving DecidableEq, Repr

/-- `sqlparser::ast::BinaryOperator` subset: the five arithmetic operators
plus a non-arithmetic one. -/
inductive AstBinOp
  | plus
  | minus
  | multiply
  | divide
  | modulo
  | gt
deriving DecidableEq, Repr

/-- Subset of `sqlparser::ast::Expr` reaching the insert path; `identifier`
stands in for the expression shapes the executor's final catch-all arm
receives. -/
inductive AstExpr
  | value (v : AstValue)
  | cast (expr : AstExpr) (dataType : AstDataType)
  | unaryOp (op : AstUnaryOp) (expr : AstExpr)
  | binaryOp (op : AstBinOp) (left right : AstExpr)
  | identifier (name : String)
deriving DecidableEq, Repr

/-- The single-quote character, used by the `Display` model of quoted
string literals. -/
def quoteChar : Char := Char.ofNat 39

/-- `Display` model for `AstValue` (sqlparser's `to_string`). -/
def valueText : AstValue → String
  | .number t => t
  | .singleQuotedString t => String.singleton quoteChar ++ t ++ String.singleton quoteChar
  | .boolean b => if b then "true" else "false"
  | .null => "NULL"

/-- `Display` model for `AstDataType`. -/
def dataTypeText : AstDataType → String
  | .boolean => "boolean"
  | .smallInt => "smallint"
  | .intType => "int"
  | .bigInt => "bigint"

/-- `Display` model for `AstUnaryOp`. -/
def unaryOpText : AstUnaryOp → String
  | .plus => "+"
  | .minus => "-"
  | .notOp => "NOT"

/-- `Display` model for `AstBinOp`. -/
def binOpText : AstBinOp → String
  | .plus => "+"
  | .minus => "-"
  | .multiply => "*"
  | .divide => "/"
  | .modulo => "%"
  | .gt => ">"

/-- `Display` model for `AstExpr` (sqlparser's `Expr::to_string`). -/
def exprText : AstExpr → String
  | .value v => valueText v
  | .cast e dt => "CAST(" ++ exprText e ++ " AS " ++ dataTypeText dt ++ ")"
  | .unaryOp op e => unaryOpText op ++ " " ++ exprText e
  | .binaryOp op l r => exprText l ++ " " ++ binOpText op ++ " " ++ exprText r
  | .identifier n => n

/-- Derived-`Debug` model for `AstValue`, used by the unsupported-cast
message (`format!("Cast from {:?} to {:?} ...", expr, data_type)`). -/
def valueDebug : AstValue → String
  | .number t => "Number(\"" ++ t ++ "\")"
  | .singleQuotedString t => "SingleQuotedString(\"" ++ t ++ "\")"
  | .boolean b => if b then "Boolean(true)" else "Boolean(false)"
  | .null => "Null"

/-- Derived-`Debug` model for `AstDataType`. -/
def dataTypeDebug : AstDataType → String
  | .boolean => "Boolean"
  | .smallInt => "SmallInt"
  | .intType => "Int"
  | .bigInt => "BigInt"

/-- Derived-`Debug` model for `AstExpr` on the subset above. -/
def exprDebug : AstExpr → String
  | .value v => "Value(" ++ valueDebug v ++ ")"
  | .cast e dt =>
      "Cast \x7b expr: " ++ exprDebug e ++ ", data_type: " ++ dataTypeDebug dt ++ " \x7d"
  | .unaryOp op e =>
      "UnaryOp \x7b op: " ++ unaryOpText op ++ ", expr: " ++ exprDebug e ++ " \x7d"
  | .binaryOp op l r =>
      "BinaryOp \x7b op: " ++ binOpText op ++ ", left: " ++ exprDebug l ++
        ", right: " ++ exprDebug r ++ " \x7d"
  | .identifier n => "Identifier(\"" ++ n ++ "\")"

/-- PostgreSQL wire type tags, the image of `SqlType::to_pg_types()`.
Modelled from the spec: each type has a PostgreSQL OID (spec section 3). -/
inductive PgType
  | smallInt
  | integer
  | bigInt
  | pgChar
  | varChar
  | pgBool
deriving DecidableEq, Repr

/-- `SqlType::to_pg_types()`. -/
def toPgTypes : SqlType → PgType
  | .smallInt => .smallInt
  | .integer => .integer
  | .bigInt => .bigInt
  | .char _ => .pgChar
  | .varChar _ => .varChar
  | .boolean => .pgBool

/-- One entry of a built `QueryError`.  Modelled from the spec:
`QueryErrorBuilder` (protocol crate, not among the source files) collects
entries, one per builder call, and `build()` returns them as one error
response (spec section 7). -/
inductive ErrorItem
  | schemaDoesNotExist (name : String)
  | tableDoesNotExist (name : String)
  | columnDoesNotExist (names : List String)
  | synErr (message : String)
  | featureNotSupported (sql : String)
  | tooManyInsertExpressions
  | outOfRange (pgType : PgType) (column : String) (rowIndex : Nat)
  | typeMismatch (value : String) (pgType : PgType) (column : String) (rowIndex : Nat)
  | stringLengthMismatch (pgType : PgType) (len : Nat) (column : String) (rowIndex : Nat)
  | divisionByZero
deriving DecidableEq, Repr

/-- `QueryEvent` subset the insert path emits. -/
inductive QueryEvent
  | recordsInserted (n : Nat)
deriving DecidableEq, Repr

/-- One `session.send(...)` call: a success event or a query error holding
its builder entries. -/
inductive SendItem
  | event (e : QueryEvent)
  | err (entries : List ErrorItem)
deriving DecidableEq, Repr

/-- Binary-expression evaluation.  Modelled from the spec:
`ExpressionEvaluation` (referenced by `insert.rs` but not among the source
files) evaluates the five arithmetic operators over two numeric literals in
integer arithmetic, reports `DivisionByZero` on division or modulo by
zero, and emits `SyntaxError(expr_text)` for anything else (spec section
4.5).  The overflow width is unspecified there, so arithmetic is modelled
unbounded; no theorem below depends on overflow. -/
def evalBinary (e : AstExpr) : Except (List ErrorItem) String :=
  match e with
  | .binaryOp op (.value (.number l)) (.value (.number r)) =>
      match parseIntText l, parseIntText r with
      | some a, some b =>
          match op with
          | .plus => .ok (toString (a + b))
          | .minus => .ok (toString (a - b))
          | .multiply => .ok (toString (a * b))
          | .divide => if b = 0 then .error [.divisionByZero] else .ok (toString (a / b))
          | .modulo => if b = 0 then .error [.divisionByZero] else .ok (toString (a % b))
          | .gt => .error [.synErr (exprText e)]
      | _, _ => .error [.synErr (exprText e)]
  | _ => .error [.synErr (exprText e)]

/-- One cell of a VALUES row, translated arm by arm from the `match col`
in `InsertCommand::execute`: numeric, quoted-string and boolean literals
evaluate to their text; `CAST` is supported only for bool←bool and
bool←string and otherwise sends a cast-specific syntax error built with
`{:?}` formatting; unary minus on a numeric literal prepends `-`; other
unary operators send the operator text concatenated with the operand text;
binary operators defer to `ExpressionEvaluation`; every other shape sends
`expr.to_string()`. -/
def evalCell : AstExpr → Except (List ErrorItem) String
  | .value (.number v) => .ok v
  | .value (.singleQuotedString v) => .ok v
  | .value (.boolean v) => .ok (if v then "true" else "false")
  | .cast e dt =>
      match e, dt with
      | .value (.boolean v), .boolean => .ok (if v then "true" else "false")
      | .value (.singleQuotedString v), .boolean => .ok v
      | e, dt =>
          .error [.synErr ("Cast from " ++ exprDebug e ++ " to " ++ dataTypeDebug dt ++
            " is not currently supported")]
  | .unaryOp op e =>
      match op, e with
      | .minus, .value (.number v) => .ok ("-" ++ v)
      | op, e => .error [.synErr (unaryOpText op ++ exprText e)]
  | .binaryOp op l r => evalBinary (.binaryOp op l r)
  | e => .error [.synErr (exprText e)]

/-- The `for col in line` loop body: evaluate cells left to right, stopping
at the first error (the source sends the error and returns early). -/
def evalRow : List AstExpr → Except (List ErrorItem) (List String)
  | [] => .ok []
  | e :: rest =>
      match evalCell e with
      | .error err => .error err
      | .ok v => (evalRow rest).map (fun vs => v :: vs)

/-- The `for line in values` loop: evaluate rows in order, stopping at the
first error. -/
def evalLines : List (List AstExpr) → Except (List ErrorItem) (List (List String))
  | [] => .ok []
  | line :: rest =>
      match evalRow line with
      | .error err => .error err
      | .ok row => (evalLines rest).map (fun rows => row :: rows)

/-- The `constraint_error_mapper` closure of `InsertCommand::execute`: one
builder entry per collected violation. -/
def constraintItem (rowIndex : Nat) (p : ConstraintError × ColumnDefinition) : ErrorItem :=
  match p.1 with
  | .outOfRange => .outOfRange (toPgTypes p.2.sql_type) p.2.name rowIndex
  | .typeMismatch v => .typeMismatch v (toPgTypes p.2.sql_type) p.2.name rowIndex
  | .valueTooLong len => .stringLengthMismatch (toPgTypes p.2.sql_type) len p.2.name rowIndex

/-- The error translation of the `match ... insert_into ...` arms of
`InsertCommand::execute`. -/
def insertErrorResponse (schemaName tableName : String) :
    OperationOnTableError → List ErrorItem
  | .schemaDoesNotExist => [.schemaDoesNotExist schemaName]
  | .tableDoesNotExist => [.tableDoesNotExist (schemaName ++ "." ++ tableName)]
  | .columnDoesNotExist ns => [.columnDoesNotExist ns]
  | .constraintViolations errs rowIndex => errs.map (constraintItem rowIndex)
  | .insertTooManyExpressions => [.tooManyInsertExpressions]

/-- The body of an INSERT source query: `SetExpr::Values` or any other
query shape. -/
inductive SetExprAst
  | valuesExpr (lines : List (List AstExpr))
  | otherQuery (text : String)
deriving DecidableEq, Repr

/-- `InsertCommand::execute`.  Translated from `insert.rs`: the last
object-name identifier is popped as the table name and the next-to-last as
the schema name (`none` models the `unwrap` panic when either pop fails);
a non-`Values` body sends `FeatureNotSupported(raw_sql)`; otherwise the
VALUES rows are evaluated, `insert_into` is called, and its result is
translated into one `RecordsInserted(n)` event or one query error.  The
result pairs the `session.send` calls with the final storage. -/
def insertExecute (rawSql : String) (name : List String) (columns : List String)
    (source : SetExprAst) (storage : FrontendStorage) :
    Option (List SendItem × FrontendStorage) :=
  match name.getLast? with
  | none => none
  | some tableName =>
      match name.dropLast.getLast? with
      | none => none
      | some schemaName =>
          match source with
          | .otherQuery _ => some ([.err [.featureNotSupported rawSql]], storage)
          | .valuesExpr lines =>
              match evalLines lines with
              | .error e => some ([.err e], storage)
              | .ok rows =>
                  match insertInto storage schemaName tableName columns rows with
                  | .ok st' => some ([.event (.recordsInserted rows.length)], st')
                  | .error e =>
                      some ([.err (insertErrorResponse schemaName tableName e)], storage)

/-! ## Claim C6: unsupported VALUES expressions -/

/-- The supported VALUES expression shapes per the spec (section 4.5):
numeric, single-quoted string and boolean literals, bool←bool and
bool←string CASTs, unary minus on a numeric literal, and binary integer
arithmetic over two numeric literals. -/
def supportedShape : AstExpr → Bool
  | .value (.number _) => true
  | .value (.singleQuotedString _) => true
  | .value (.boolean _) => true
  | .cast (.value (.boolean _)) .boolean => true
  | .cast (.value (.singleQuotedString _)) .boolean => true
  | .unaryOp .minus (.value (.number _)) => true
  | .binaryOp op (.value (.number _)) (.value (.number _)) =>
      match op with
      | .gt => false
      | _ => true
  | _ => false

/-- The message the executor attaches to the syntax error of an
unsupported expression: the cast-specific text for a `CAST`, the operator
text followed by the operand text for a unary operation, and the
expression's own text otherwise. -/
def unsupportedMsg : AstExpr → String
  | .cast e dt =>
      "Cast from " ++ exprDebug e ++ " to " ++ dataTypeDebug dt ++
        " is not currently supported"
  | .unaryOp op e => unaryOpText op ++ exprText e
  | e => exprText e

theorem evalCell_unsupported (e : AstExpr) (h : supportedShape e = false) :
    evalCell e = .error [.synErr (unsupportedMsg e)] := by
  cases e with
  | value v => cases v <;> simp_all [supportedShape, evalCell, unsupportedMsg]
  | identifier n => simp [evalCell, unsupportedMsg]
  | cast e dt =>
      cases e with
      | value v => cases v <;> cases dt <;> simp_all [supportedShape, evalCell, unsupportedMsg]
      | cast e2 dt2 => simp [evalCell, unsupportedMsg]
      | unaryOp op2 e2 => simp [evalCell, unsupportedMsg]
      | binaryOp op2 l2 r2 => simp [evalCell, unsupportedMsg]
      | identifier n2 => simp [evalCell, unsupportedMsg]
  | unaryOp op e =>
      cases op with
      | minus =>
          cases e with
          | value v => cases v <;> simp_all [supportedShape, evalCell, unsupportedMsg]
          | cast e2 dt2 => simp [evalCell, unsupportedMsg]
          | unaryOp op2 e2 => simp [evalCell, unsupportedMsg]
          | binaryOp op2 l2 r2 => simp [evalCell, unsupportedMsg]
          | identifier n2 => simp [evalCell, unsupportedMsg]
      | plus => simp [evalCell, unsupportedMsg]
      | notOp => simp [evalCell, unsupportedMsg]
  | binaryOp op l r =>
      cases l with
      | value vl =>
          cases vl with
          | number lt =>
              cases r with
              | value vr =>
                  cases vr with
                  | number rt =>
                      cases op <;> simp_all [supportedShape] <;>
                        cases hpl : parseIntText lt <;> cases hpr : parseIntText rt <;>
                          simp [evalCell, evalBinary, unsupportedMsg, hpl, hpr]
                  | singleQuotedString s => simp [evalCell, evalBinary, unsupportedMsg]
                  | boolean b => simp [evalCell, evalBinary, unsupportedMsg]
                  | null => simp [evalCell, evalBinary, unsupportedMsg]
              | cast e2 dt2 => simp [evalCell, evalBinary, unsupportedMsg]
              | unaryOp o2 e2 => simp [evalCell, evalBinary, unsupportedMsg]
              | binaryOp o2 a2 b2 => simp [evalCell, evalBinary, unsupportedMsg]
              | identifier n2 => simp [evalCell, evalBinary, unsupportedMsg]
          | singleQuotedString s => simp [evalCell, evalBinary, unsupportedMsg]
          | boolean b => simp [evalCell, evalBinary, unsupportedMsg]
          | null => simp [evalCell, evalBinary, unsupportedMsg]
      | cast e2 dt2 => simp [evalCell, evalBinary, unsupportedMsg]
      | unaryOp o2 e2 => simp [evalCell, evalBinary, unsupportedMsg]
      | binaryOp o2 a2 b2 => simp [evalCell, evalBinary, unsupportedMsg]
      | identifier n2 => simp [evalCell, evalBinary, unsupportedMsg]

theorem evalRow_append_ok :
    (es1 : List AstExpr) → (vs : List String) → evalRow es1 = .ok vs →
      ∀ es2, evalRow (es1 ++ es2) = (evalRow es2).map (fun ws => vs ++ ws)
  | [], vs, h, es2 => by
      simp only [evalRow] at h
      cases h
      cases hr : evalRow es2 <;> simp [hr, Except.map]
  | e :: es1, vs, h, es2 => by
      simp only [evalRow] at h
      cases hc : evalCell e with
      | error err => rw [hc] at h; simp at h
      | ok v =>
          rw [hc] at h
          cases hr : evalRow es1 with
          | error err => rw [hr] at h; simp [Except.map] at h
          | ok vs1 =>
              rw [hr] at h
              simp only [Except.map] at h
              cases h
              have ih := evalRow_append_ok es1 vs1 hr es2
              simp only [List.cons_append, evalRow, hc, List.append_eq]
              rw [ih]
              cases hr2 : evalRow es2 <;> simp [Except.map]

theorem evalRow_first_error (es1 : List AstExpr) (vs : List String)
    (h : evalRow es1 = .ok vs) (e : AstExpr) (err : List ErrorItem)
    (hc : evalCell e = .error err) (suf : List AstExpr) :
    evalRow (es1 ++ e :: suf) = .error err := by
  rw [evalRow_append_ok es1 vs h (e :: suf)]
  simp [evalRow, hc, Except.map]

theorem evalLines_append_ok :
    (ls1 : List (List AstExpr)) → (rs : List (List String)) → evalLines ls1 = .ok rs →
      ∀ ls2, evalLines (ls1 ++ ls2) = (evalLines ls2).map (fun ws => rs ++ ws)
  | [], rs, h, ls2 => by
      simp only [evalLines] at h
      cases h
      cases hr : evalLines ls2 <;> simp [hr, Except.map]
  | l :: ls1, rs, h, ls2 => by
      simp only [evalLines] at h
      cases hc : evalRow l with
      | error err => rw [hc] at h; simp at h
      | ok row =>
          rw [hc] at h
          cases hr : evalLines ls1 with
          | error err => rw [hr] at h; simp [Except.map] at h
          | ok rs1 =>
              rw [hr] at h
              simp only [Except.map] at h
              cases h
              have ih := evalLines_append_ok ls1 rs1 hr ls2
              simp only [List.cons_append, evalLines, hc, List.append_eq]
              rw [ih]
              cases hr2 : evalLines ls2 <;> simp [Except.map]

theorem exists_getLast_pair (name : List String) (h : 2 ≤ name.length) :
    ∃ a b, name.getLast? = some b ∧ name.dropLast.getLast? = some a := by
  have h1 : name ≠ [] := by
    intro he
    rw [he] at h
    simp at h
  have h2 : name.dropLast ≠ [] := by
    have := List.length_dropLast name
    intro he
    rw [he] at this
    simp at this
    omega
  exact ⟨name.dropLast.getLast h2, name.getLast h1,
    List.getLast?_eq_getLast name h1, List.getLast?_eq_getLast name.dropLast h2⟩

/-- C6 (amended).  For every INSERT whose first failing VALUES expression
(in row-major, left-to-right evaluation order) is not one of the supported
shapes, the executor sends exactly one `SyntaxError` query error — carrying
the expression's text for unrecognized shapes and unsupported binary
operations, the operator text followed by the operand text for unsupported
unary operations, and a cast-specific message for unsupported CASTs — and
aborts the statement: `insert_into` is never called and storage is
returned unchanged. -/
theorem insert_unsupported_expression_sends_single_syntax_error
    (rawSql : String) (name : List String) (columns : List String)
    (storage : FrontendStorage) (pre : List (List AstExpr)) (rowPre suf : List AstExpr)
    (post : List (List AstExpr)) (e : AstExpr)
    (hname : 2 ≤ name.length)
    (hpre : ∃ rs, evalLines pre = .ok rs) (hrow : ∃ vs, evalRow rowPre = .ok vs)
    (hshape : supportedShape e = false) :
    insertExecute rawSql name columns
        (.valuesExpr (pre ++ (rowPre ++ e :: suf) :: post)) storage =
      some ([.err [.synErr (unsupportedMsg e)]], storage) := by
  obtain ⟨rs, hrs⟩ := hpre
  obtain ⟨vs, hvs⟩ := hrow
  obtain ⟨a, b, hb, ha⟩ := exists_getLast_pair name hname
  have hrowerr : evalRow (rowPre ++ e :: suf) = .error [.synErr (unsupportedMsg e)] :=
    evalRow_first_error rowPre vs hvs e _ (evalCell_unsupported e hshape) suf
  have hlines : evalLines (pre ++ (rowPre ++ e :: suf) :: post) =
      .error [.synErr (unsupportedMsg e)] := by
    rw [evalLines_append_ok pre rs hrs]
    simp [evalLines, hrowerr, Except.map]
  simp [insertExecute, hb, ha, hlines]

/-- Counterexample to C6 as stated: at `CAST(1 AS smallint)` the single
syntax error sent does not carry the expression's text but a cast-specific
message. -/
theorem insert_unsupported_cast_message_counterexample :
    insertExecute "INSERT INTO schema_name.table_name VALUES (CAST(1 AS smallint))"
        ["schema_name", "table_name"] []
        (.valuesExpr [[.cast (.value (.number "1")) .smallInt]]) ⟨[]⟩ =
      some ([.err [.synErr
        "Cast from Value(Number(\"1\")) to SmallInt is not currently supported"]], ⟨[]⟩) ∧
    "Cast from Value(Number(\"1\")) to SmallInt is not currently supported" ≠
      exprText (.cast (.value (.number "1")) .smallInt) := by
  constructor
  · rfl
  · decide

/-- Witness for the amended C6 at an identifier expression following one
successfully evaluated row. -/
theorem insert_unsupported_expression_sends_single_syntax_error_witness :
    insertExecute "INSERT INTO schema_name.table_name VALUES (1), (c1)"
        ["schema_name", "table_name"] []
        (.valuesExpr ([[.value (.number "1")]] ++
          (([] : List AstExpr) ++ AstExpr.identifier "c1" :: []) :: [])) ⟨[]⟩ =
      some ([.err [.synErr (unsupportedMsg (.identifier "c1"))]], ⟨[]⟩) :=
  insert_unsupported_expression_sends_single_syntax_error
    "INSERT INTO schema_name.table_name VALUES (1), (c1)"
    ["schema_name", "table_name"] [] ⟨[]⟩ [[.value (.number "1")]] [] [] []
    (.identifier "c1") (by decide) ⟨[["1"]], rfl⟩ ⟨[], rfl⟩ (by decide)

/-! ## Claim C7: constraint violations map into one error response -/

/-- C7.  When `insert_into` reports `ConstraintViolations` for a row, the
executor sends exactly one query-error response whose entries are the
collected (kind, column-definition) violations mapped in order —
`OutOfRange`, `TypeMismatch(value)` and `ValueTooLong(len)` respectively —
and the statement aborts with storage unchanged. -/
theorem insert_constraint_violations_one_response
    (rawSql : String) (name : List String) (columns : List String)
    (storage : FrontendStorage) (lines : List (List AstExpr))
    (rows : List (List String)) (schemaName tableName : String)
    (errs : List (ConstraintError × ColumnDefinition)) (rowIndex : Nat)
    (htab : name.getLast? = some tableName)
    (hschema : name.dropLast.getLast? = some schemaName)
    (heval : evalLines lines = .ok rows)
    (hins : insertInto storage schemaName tableName columns rows =
      .error (.constraintViolations errs rowIndex)) :
    insertExecute rawSql name columns (.valuesExpr lines) storage =
      some ([.err (errs.map (constraintItem rowIndex))], storage) := by
  simp [insertExecute, htab, hschema, heval, hins, insertErrorResponse]

/-- Witness for C7: inserting 40000 into a `smallint` column, as in spec
scenario 5. -/
theorem insert_constraint_violations_one_response_witness :
    insertExecute "INSERT INTO schema_name.table_name VALUES (40000)"
        ["schema_name", "table_name"] []
        (.valuesExpr [[.value (.number "40000")]])
        ⟨[("schema_name", [("table_name", ⟨[⟨"column_1", .smallInt⟩], []⟩)])]⟩ =
      some ([.err ([((ConstraintError.outOfRange : ConstraintError),
          (⟨"column_1", .smallInt⟩ : ColumnDefinition))].map (constraintItem 0))],
        ⟨[("schema_name", [("table_name", ⟨[⟨"column_1", .smallInt⟩], []⟩)])]⟩) :=
  insert_constraint_violations_one_response
    "INSERT INTO schema_name.table_name VALUES (40000)"
    ["schema_name", "table_name"] []
    ⟨[("schema_name", [("table_name", ⟨[⟨"column_1", .smallInt⟩], []⟩)])]⟩
    [[.value (.number "40000")]] [["40000"]] "schema_name" "table_name"
    [((ConstraintError.outOfRange : ConstraintError),
      (⟨"column_1", .smallInt⟩ : ColumnDefinition))] 0
    rfl rfl rfl rfl

/-! ## Claim C8: RecordsInserted counts the source rows -/

theorem evalLines_length :
    (lines : List (List AstExpr)) → (rows : List (List String)) →
      evalLines lines = .ok rows → rows.length = lines.length
  | [], rows, h => by
      simp only [evalLines] at h
      cases h
      rfl
  | line :: rest, rows, h => by
      simp only [evalLines] at h
      cases hc : evalRow line with
      | error err => rw [hc] at h; simp at h
      | ok row =>
          rw [hc] at h
          cases hr : evalLines rest with
          | error err => rw [hr] at h; simp [Except.map] at h
          | ok rs =>
              rw [hr] at h
              simp only [Except.map] at h
              cases h
              simp [evalLines_length rest rs hr]

/-- C8.  When every VALUES row evaluates successfully and `insert_into`
succeeds, the executor sends exactly one `RecordsInserted(n)` event with n
the number of VALUES source rows. -/
theorem insert_success_sends_records_inserted
    (rawSql : String) (name : List String) (columns : List String)
    (storage st' : FrontendStorage) (lines : List (List AstExpr))
    (rows : List (List String)) (schemaName tableName : String)
    (htab : name.getLast? = some tableName)
    (hschema : name.dropLast.getLast? = some schemaName)
    (heval : evalLines lines = .ok rows)
    (hins : insertInto storage schemaName tableName columns rows = .ok st') :
    insertExecute rawSql name columns (.valuesExpr lines) storage =
      some ([.event (.recordsInserted lines.length)], st') := by
  have hlen := evalLines_length lines rows heval
  simp [insertExecute, htab, hschema, heval, hins, hlen]

/-- Witness for C8 at a two-row insert into a one-column table. -/
theorem insert_success_sends_records_inserted_witness :
    insertExecute "INSERT INTO schema_name.table_name VALUES (1), (2)"
        ["schema_name", "table_name"] []
        (.valuesExpr [[.value (.number "1")], [.value (.number "2")]])
        ⟨[("schema_name", [("table_name", ⟨[⟨"column_1", .smallInt⟩], []⟩)])]⟩ =
      some ([.event (.recordsInserted
          ([[.value (.number "1")], [.value (.number "2")]] :
            List (List AstExpr)).length)],
        ⟨[("schema_name", [("table_name", ⟨[⟨"column_1", .smallInt⟩],
          [["1"], ["2"]]⟩)])]⟩) :=
  insert_success_sends_records_inserted
    "INSERT INTO schema_name.table_name VALUES (1), (2)"
    ["schema_name", "table_name"] []
    ⟨[("schema_name", [("table_name", ⟨[⟨"column_1", .smallInt⟩], []⟩)])]⟩
    ⟨[("schema_name", [("table_name", ⟨[⟨"column_1", .smallInt⟩], [["1"], ["2"]]⟩)])]⟩
    [[.value (.number "1")], [.value (.number "2")]] [["1"], ["2"]]
    "schema_name" "table_name" rfl rfl rfl rfl

/-! ## Claim C9: name resolution needs at least two identifiers -/

/-- C9.  `InsertCommand::execute` pops the table name then the schema name
from the end of the object name; with fewer than two identifiers the
second unwrap panics (modelled as `none`), and with at least two the
execution is total. -/
theorem insert_execute_requires_two_name_parts
    (rawSql : String) (columns : List String) (source : SetExprAst)
    (storage : FrontendStorage) (name : List String) :
    (name.length < 2 → insertExecute rawSql name columns source storage = none) ∧
    (2 ≤ name.length → (insertExecute rawSql name columns source storage).isSome) := by
  constructor
  · intro h
    match name, h with
    | [], _ => rfl
    | [a], _ => rfl
    | a :: b :: rest, h => simp at h; omega
  · intro h
    obtain ⟨a, b, hb, ha⟩ := exists_getLast_pair name h
    simp only [insertExecute, hb, ha]
    cases source with
    | otherQuery s => simp
    | valuesExpr lines =>
        cases hev : evalLines lines with
        | error e => simp [hev]
        | ok rows => cases hins : insertInto storage a b columns rows <;> simp [hev, hins]

/-- Witness for C9: a single-identifier name panics; a two-identifier name
executes. -/
theorem insert_execute_requires_two_name_parts_witness :
    insertExecute "INSERT INTO table_name VALUES (1)" ["table_name"] []
        (.valuesExpr [[.value (.number "1")]]) ⟨[]⟩ = none ∧
    (insertExecute "INSERT INTO schema_name.table_name VALUES (1)"
        ["schema_name", "table_name"] []
        (.valuesExpr [[.value (.number "1")]]) ⟨[]⟩).isSome :=
  ⟨(insert_execute_requires_two_name_parts "INSERT INTO table_name VALUES (1)" []
      (.valuesExpr [[.value (.number "1")]]) ⟨[]⟩ ["table_name"]).1 (by decide),
   (insert_execute_requires_two_name_parts "INSERT INTO schema_name.table_name VALUES (1)"
      [] (.valuesExpr [[.value (.number "1")]]) ⟨[]⟩ ["schema_name", "table_name"]).2
     (by decide)⟩
